import Mathlib

/-!
Verification of the `ARWizardMemoryManager` (src: ar-wizard memory management,
`src/unnamed/part_001`), the namespaced knowledge store with TTL-based expiry,
best-of selection and usage-count mutation-on-read.

Times (`Date` values in the source) are modelled as natural numbers of
milliseconds; JS numbers used as scores (confidence, accuracy, metrics) are
modelled as rationals; opaque `any` payloads are modelled as strings.
The underlying `DistributedMemorySystem` is not part of the given sources,
so its four primitives are modelled from the spec (section 4.1).
-/

set_option linter.unusedVariables false

/-- `ViewpointExpertise.type` in the source (union of four string literals). -/
inductive ExpertiseType where
  | sqlProcedure | businessRule | schemaKnowledge | billingPattern
deriving DecidableEq

/-- `ViewpointExpertise.domain` in the source (union of five string literals). -/
inductive ExpertiseDomain where
  | jobBilling | jobCosting | contractManagement | changeOrders | wipAnalysis
deriving DecidableEq

/-- `ARWizardKnowledge.category` in the source. -/
inductive KnowledgeCategory where
  | predictiveModel | billingRule | integrationPattern | testCase
deriving DecidableEq

/-- `DatabaseAnalysis.database` in the source: 'kls' | 'gbi' | 'taft' | 'ideal'. -/
inductive DatabaseTag where
  | kls | gbi | taft | ideal
deriving DecidableEq

/-- `DatabaseAnalysis.analysisType` in the source. -/
inductive AnalysisKind where
  | dataQuality | performance | patternRecognition | schemaAnalysis
deriving DecidableEq

/-- `PredictiveModel.type` in the source. -/
inductive ModelType where
  | billingPrediction | costAnalysis | wipCalculation | patternRecognition
deriving DecidableEq

/-- Interface `ViewpointExpertise` of the source. -/
structure ViewpointExpertise where
  id : String
  type : ExpertiseType
  domain : ExpertiseDomain
  content : String
  confidence : ℚ
  lastUpdated : ℕ
  source : String
  validated : Bool
  usageCount : ℕ
deriving DecidableEq

/-- The optional `performance` stats of interface `ARWizardKnowledge`. -/
structure PerformanceStats where
  executionTime : ℚ
  memoryUsage : ℚ
  successRate : ℚ
deriving DecidableEq

/-- Interface `ARWizardKnowledge` of the source. -/
structure ARWizardKnowledge where
  id : String
  category : KnowledgeCategory
  description : String
  implementation : String
  accuracy : Option ℚ
  performance : Option PerformanceStats
  dependencies : List String
  createdAt : ℕ
  lastUsed : ℕ
deriving DecidableEq

/-- The `metrics` field of interface `DatabaseAnalysis`. -/
structure AnalysisMetrics where
  dataVolume : ℚ
  qualityScore : ℚ
  performanceScore : ℚ
  completenessScore : ℚ
deriving DecidableEq

/-- Interface `DatabaseAnalysis` of the source. -/
structure DatabaseAnalysis where
  id : String
  database : DatabaseTag
  analysisType : AnalysisKind
  results : String
  metrics : AnalysisMetrics
  recommendations : List String
  analyzedAt : ℕ
  validUntil : ℕ
deriving DecidableEq

/-- The `trainingData.dateRange` field of interface `PredictiveModel`
(source field names `start` and `end`; `end` is a Lean keyword, renamed
`endTime`). -/
structure DateRange where
  start : ℕ
  endTime : ℕ
deriving DecidableEq

/-- The `trainingData` field of interface `PredictiveModel`. -/
structure TrainingData where
  source : String
  size : ℕ
  dateRange : DateRange
deriving DecidableEq

/-- The `performance` field of interface `PredictiveModel` (the source fields
`precision` and `recall` are reserved tokens in Lean with Mathlib, renamed
`precisionScore` and `recallScore`). -/
structure ModelPerformance where
  accuracy : ℚ
  precisionScore : ℚ
  recallScore : ℚ
  f1Score : ℚ
deriving DecidableEq

/-- Interface `PredictiveModel` of the source. -/
structure PredictiveModel where
  id : String
  name : String
  type : ModelType
  algorithm : String
  features : List String
  trainingData : TrainingData
  performance : ModelPerformance
  model : String
  version : String
  trainedAt : ℕ
  lastValidated : ℕ
deriving DecidableEq

/-- The wrapper stored by `storeSharedContext`:
`{data: context, timestamp: new Date(), ttl: ...}`. -/
structure SharedContextEntry where
  data : String
  timestamp : ℕ
  ttl : ℕ
deriving DecidableEq

/-- Modelled from the spec: the backing `DistributedMemorySystem` (its code is
not among the given sources) is, per spec section 4.1, a key/value store
partitioned into namespaces. Each namespace is represented as an association
list from record identifier to record; the five namespaces used by the
manager (`ar-wizard:viewpoint-expertise`, `ar-wizard:knowledge`,
`ar-wizard:database-analysis`, `ar-wizard:predictive-models`,
`ar-wizard:shared-context`) are the five fields. -/
structure MemoryState where
  viewpointExpertise : List (String × ViewpointExpertise)
  arWizardKnowledge : List (String × ARWizardKnowledge)
  databaseAnalysis : List (String × DatabaseAnalysis)
  predictiveModels : List (String × PredictiveModel)
  sharedContext : List (String × SharedContextEntry)
deriving DecidableEq

/-- Modelled from the spec: `put(namespace, id, record)` "stores/overwrites
`record` under `id` within `namespace`" (spec 4.1). Any previous entry for
the key is removed and the new binding appended. -/
def kvStore {α : Type} (s : List (String × α)) (id : String) (v : α) :
    List (String × α) :=
  s.filter (fun p => p.1 != id) ++ [(id, v)]

/-- Modelled from the spec: `get(namespace, id)` "returns the record or a
not-found signal (null/option), no error for absence" (spec 4.1). -/
def kvGet {α : Type} (s : List (String × α)) (id : String) : Option α :=
  (s.find? (fun p => p.1 == id)).map Prod.snd

/-- Modelled from the spec: `query(namespace, predicate)` "returns all records
in `namespace` matching `predicate`"; ordering is the storage order
(spec 4.1 leaves it unspecified). -/
def kvQuery {α : Type} (s : List (String × α)) (pred : α → Bool) : List α :=
  (s.filter (fun p => pred p.2)).map Prod.snd

/-- Modelled from the spec: `delete(namespace, id)` "removes the record;
deleting an absent id is a no-op success" (spec 4.1). -/
def kvDelete {α : Type} (s : List (String × α)) (id : String) :
    List (String × α) :=
  s.filter (fun p => p.1 != id)

theorem kvGet_store_self {α : Type} (s : List (String × α)) (id : String)
    (v : α) : kvGet (kvStore s id v) id = some v := by
  unfold kvGet kvStore
  rw [List.find?_append]
  have h : (s.filter (fun p => p.1 != id)).find? (fun p => p.1 == id) = none := by
    rw [List.find?_eq_none]
    intro p hp
    have := List.of_mem_filter hp
    simp only [bne_iff_ne, ne_eq] at this
    simp [this]
  simp [h]

theorem find?_filter_of_imp {α : Type} (l : List α) (p q : α → Bool)
    (h : ∀ x, p x = true → q x = true) :
    (l.filter q).find? p = l.find? p := by
  induction l with
  | nil => rfl
  | cons a as ih =>
    by_cases hq : q a = true
    · rw [List.filter_cons_of_pos hq]
      cases hp : p a with
      | true => simp [List.find?_cons, hp]
      | false => simp [List.find?_cons, hp, ih]
    · have hp : p a = false := by
        cases hpa : p a with
        | true => exact absurd (h a hpa) hq
        | false => rfl
      rw [List.filter_cons_of_neg hq]
      simp [List.find?_cons, hp, ih]

theorem kvGet_store_ne {α : Type} (s : List (String × α)) (id id' : String)
    (v : α) (h : id' ≠ id) : kvGet (kvStore s id v) id' = kvGet s id' := by
  unfold kvGet kvStore
  rw [List.find?_append]
  have h2 : ([(id, v)] : List (String × α)).find? (fun p => p.1 == id') = none := by
    have hne : (id == id') = false := by
      simp only [beq_eq_false_iff_ne, ne_eq]
      exact fun heq => h heq.symm
    simp [List.find?_cons, hne]
  have h1 : (s.filter (fun p => p.1 != id)).find? (fun p => p.1 == id')
      = s.find? (fun p => p.1 == id') := by
    apply find?_filter_of_imp
    intro x hx
    have hx' : x.1 = id' := by simpa [beq_iff_eq] using hx
    simp [bne_iff_ne, hx']
    exact h
  rw [h1]
  cases hf : s.find? (fun p => p.1 == id') with
  | none => simp [h2]
  | some p => simp

theorem kvGet_delete_self {α : Type} (s : List (String × α)) (id : String) :
    kvGet (kvDelete s id) id = none := by
  unfold kvGet kvDelete
  have h : (s.filter (fun p => p.1 != id)).find? (fun p => p.1 == id) = none := by
    rw [List.find?_eq_none]
    intro p hp
    have := List.of_mem_filter hp
    simp only [bne_iff_ne, ne_eq] at this
    simp [this]
  simp [h]

theorem kvGet_of_mem_nodup {α : Type} (s : List (String × α)) (k : String)
    (v : α) (hnd : (s.map Prod.fst).Nodup) (hm : (k, v) ∈ s) :
    kvGet s k = some v := by
  induction s with
  | nil => cases hm
  | cons a as ih =>
    simp only [List.map_cons, List.nodup_cons] at hnd
    rcases List.mem_cons.mp hm with heq | htail
    · subst heq
      simp [kvGet, List.find?_cons]
    · have hk : a.1 ≠ k := by
        intro hak
        exact hnd.1 (hak ▸ (List.mem_map.mpr ⟨(k, v), htail, rfl⟩))
      have : (a.1 == k) = false := by simp [beq_iff_eq, hk]
      simp only [kvGet, List.find?_cons, this, cond_false]
      exact ih hnd.2 htail

theorem mem_kvQuery {α : Type} (s : List (String × α)) (pred : α → Bool)
    (v : α) : v ∈ kvQuery s pred ↔ (∃ k, (k, v) ∈ s) ∧ pred v = true := by
  unfold kvQuery
  constructor
  · intro h
    rcases List.mem_map.mp h with ⟨p, hp, hpv⟩
    have hmem := List.mem_of_mem_filter hp
    have hpred := List.of_mem_filter hp
    subst hpv
    exact ⟨⟨p.1, hmem⟩, hpred⟩
  · rintro ⟨⟨k, hk⟩, hpred⟩
    exact List.mem_map.mpr ⟨(k, v), List.mem_filter.mpr ⟨hk, hpred⟩, rfl⟩

/-- The query criterion built by `getViewpointExpertise`:
`{domain, ...(type && {type})}` — match on domain, and on type only when a
type filter is supplied. -/
def expertiseMatches (domain : ExpertiseDomain) (type? : Option ExpertiseType)
    (e : ViewpointExpertise) : Bool :=
  e.domain == domain &&
    (match type? with
     | some t => e.type == t
     | none => true)

/-- `storeViewpointExpertise` of the source: builds the record with the
generated `id`, `lastUpdated := now` and `usageCount := 0`, stores it under
`id` in the expertise namespace and returns the id. The generated id is a
parameter (`generateId` is a fresh-id generator from the utils module, not in
the given sources). -/
def storeViewpointExpertise (st : MemoryState) (id : String) (now : ℕ)
    (type : ExpertiseType) (domain : ExpertiseDomain) (content : String)
    (confidence : ℚ) (source : String) (validated : Bool) :
    MemoryState × String :=
  let expertiseRecord : ViewpointExpertise :=
    { id := id, type := type, domain := domain, content := content,
      confidence := confidence, lastUpdated := now, source := source,
      validated := validated, usageCount := 0 }
  ({ st with viewpointExpertise :=
      kvStore st.viewpointExpertise id expertiseRecord }, id)

/-- `getViewpointExpertise` of the source: query the expertise namespace by
domain (and type when given); for each record returned, increment its
`usageCount` and store it back under its id; return the incremented records.
The source's single loop both mutates each array element (`usageCount++`)
and persists it; this is rendered as the incremented list and a fold of
stores of its elements. -/
def getViewpointExpertise (st : MemoryState) (domain : ExpertiseDomain)
    (type? : Option ExpertiseType) : List ViewpointExpertise × MemoryState :=
  let allExpertise :=
    (kvQuery st.viewpointExpertise (expertiseMatches domain type?)).map
      (fun e => { e with usageCount := e.usageCount + 1 })
  (allExpertise,
   { st with viewpointExpertise :=
      allExpertise.foldl (fun ns e => kvStore ns e.id e) st.viewpointExpertise })

/-- `searchViewpointExpertise` of the source: a query with a `$text` full-text
criterion plus an optional domain filter, with no write-back. The `$text`
operator is interpreted by the backing `DistributedMemorySystem`, which is not
among the given sources and whose spec (4.1) describes only field matching;
the text criterion is therefore abstracted as an arbitrary Boolean predicate
`textPred`. The state is returned unchanged (the source performs no store). -/
def searchViewpointExpertise (st : MemoryState)
    (textPred : ViewpointExpertise → Bool)
    (domain? : Option ExpertiseDomain) :
    List ViewpointExpertise × MemoryState :=
  ((kvQuery st.viewpointExpertise
      (fun e => textPred e &&
        (match domain? with
         | some d => e.domain == d
         | none => true))), st)

/-- `getARWizardKnowledge` of the source: query the knowledge namespace by
category; for each record returned, set `lastUsed := now` and store it back;
return the updated records. -/
def getARWizardKnowledge (st : MemoryState) (category : KnowledgeCategory)
    (now : ℕ) : List ARWizardKnowledge × MemoryState :=
  let knowledge :=
    (kvQuery st.arWizardKnowledge (fun k => k.category == category)).map
      (fun k => { k with lastUsed := now })
  (knowledge,
   { st with arWizardKnowledge :=
      knowledge.foldl (fun ns k => kvStore ns k.id k) st.arWizardKnowledge })

/-- The query criterion built by `getDatabaseAnalysis`: `{database}` plus
`analysisType` when supplied. -/
def analysisMatches (database : DatabaseTag) (analysisType? : Option AnalysisKind)
    (a : DatabaseAnalysis) : Bool :=
  a.database == database &&
    (match analysisType? with
     | some t => a.analysisType == t
     | none => true)

/-- `getDatabaseAnalysis` of the source: query the analysis namespace by
database (and analysis type when given), then filter out expired analyses
(`analysis.validUntil > now` is kept). -/
def getDatabaseAnalysis (st : MemoryState) (database : DatabaseTag)
    (analysisType? : Option AnalysisKind) (now : ℕ) : List DatabaseAnalysis :=
  let analyses := kvQuery st.databaseAnalysis (analysisMatches database analysisType?)
  analyses.filter (fun analysis => decide (now < analysis.validUntil))

/-- Recency ordering used by `getLatestDatabaseAnalysis`'s comparator
`(a, b) => b.analyzedAt.getTime() - a.analyzedAt.getTime()`:
`a` sorts before `b` when `b.analyzedAt ≤ a.analyzedAt`. -/
def analyzedAtGe (a b : DatabaseAnalysis) : Prop :=
  b.analyzedAt ≤ a.analyzedAt

instance : DecidableRel analyzedAtGe :=
  fun a b => inferInstanceAs (Decidable (b.analyzedAt ≤ a.analyzedAt))

instance : IsTotal DatabaseAnalysis analyzedAtGe :=
  ⟨fun a b => (Nat.le_total b.analyzedAt a.analyzedAt).elim Or.inl Or.inr⟩

instance : IsTrans DatabaseAnalysis analyzedAtGe :=
  ⟨fun a b c hab hbc => Nat.le_trans hbc hab⟩

/-- `getLatestDatabaseAnalysis` of the source: take the live-filtered result
of `getDatabaseAnalysis`, return null when empty, else sort descending by
`analyzedAt` and return the head. The JS `Array.sort` with comparator
`b.analyzedAt - a.analyzedAt` is rendered as a stable insertion sort on the
reflexive-total order `analyzedAtGe`. -/
def getLatestDatabaseAnalysis (st : MemoryState) (database : DatabaseTag)
    (analysisType : AnalysisKind) (now : ℕ) : Option DatabaseAnalysis :=
  let analyses := getDatabaseAnalysis st database (some analysisType) now
  if analyses.isEmpty then none
  else (analyses.insertionSort analyzedAtGe).head?

/-- `storePredictiveModel` of the source: builds the record with the generated
id, `trainedAt := now` and `lastValidated := now`, and stores it. -/
def storePredictiveModel (st : MemoryState) (id : String) (now : ℕ)
    (name : String) (type : ModelType) (algorithm : String)
    (features : List String) (trainingData : TrainingData)
    (performance : ModelPerformance) (model : String) (version : String) :
    MemoryState × String :=
  let modelRecord : PredictiveModel :=
    { id := id, name := name, type := type, algorithm := algorithm,
      features := features, trainingData := trainingData,
      performance := performance, model := model, version := version,
      trainedAt := now, lastValidated := now }
  ({ st with predictiveModels := kvStore st.predictiveModels id modelRecord }, id)

/-- `getPredictiveModel` of the source: query the model namespace by type
(and name when given). -/
def getPredictiveModel (st : MemoryState) (type : ModelType)
    (name? : Option String) : List PredictiveModel :=
  kvQuery st.predictiveModels
    (fun m => m.type == type &&
      (match name? with
       | some n => m.name == n
       | none => true))

/-- Accuracy ordering used by `getBestPredictiveModel`'s comparator
`(a, b) => b.performance.accuracy - a.performance.accuracy`. -/
def modelAccGe (a b : PredictiveModel) : Prop :=
  b.performance.accuracy ≤ a.performance.accuracy

instance : DecidableRel modelAccGe :=
  fun a b => inferInstanceAs (Decidable (b.performance.accuracy ≤ a.performance.accuracy))

instance : IsTotal PredictiveModel modelAccGe :=
  ⟨fun a b => (le_total b.performance.accuracy a.performance.accuracy).elim Or.inl Or.inr⟩

instance : IsTrans PredictiveModel modelAccGe :=
  ⟨fun a b c hab hbc => le_trans hbc hab⟩

/-- `getBestPredictiveModel` of the source: query by type, return null when
empty, else sort descending by `performance.accuracy` and return the head. -/
def getBestPredictiveModel (st : MemoryState) (type : ModelType) :
    Option PredictiveModel :=
  let models := getPredictiveModel st type none
  if models.isEmpty then none
  else (models.insertionSort modelAccGe).head?

/-- `updateModelPerformance` of the source: read the model by id; when
present, replace its `performance`, set `lastValidated := now` and store it
back; when absent, do nothing. -/
def updateModelPerformance (st : MemoryState) (modelId : String)
    (performance : ModelPerformance) (now : ℕ) : MemoryState :=
  match kvGet st.predictiveModels modelId with
  | some model =>
      let updated := { model with performance := performance, lastValidated := now }
      { st with predictiveModels := kvStore st.predictiveModels modelId updated }
  | none => st

/-- `storeSharedContext` of the source: stores
`{data: context, timestamp: now, ttl: ttl || 3600000}` under `key`. JS `||`
falls back to the default both when `ttl` is omitted and when it is `0`
(zero is falsy). -/
def storeSharedContext (st : MemoryState) (key : String) (context : String)
    (ttl? : Option ℕ) (now : ℕ) : MemoryState :=
  let entry : SharedContextEntry :=
    { data := context, timestamp := now,
      ttl := match ttl? with
             | some t => if t = 0 then 3600000 else t
             | none => 3600000 }
  { st with sharedContext := kvStore st.sharedContext key entry }

/-- `getSharedContext` of the source: read the entry; absent gives null;
when `now - timestamp > ttl`, delete the entry and return null; otherwise
return the stored data. -/
def getSharedContext (st : MemoryState) (key : String) (now : ℕ) :
    Option String × MemoryState :=
  match kvGet st.sharedContext key with
  | none => (none, st)
  | some contextRecord =>
      if contextRecord.ttl < now - contextRecord.timestamp then
        (none, { st with sharedContext := kvDelete st.sharedContext key })
      else
        (some contextRecord.data, st)

/-- The snapshot consumed by `importKnowledgeBase` (`data: any` in the
source); each of the four arrays may be absent (`data.x || []`). -/
structure KnowledgeSnapshot where
  viewpointExpertise : Option (List ViewpointExpertise)
  arWizardKnowledge : Option (List ARWizardKnowledge)
  databaseAnalyses : Option (List DatabaseAnalysis)
  predictiveModels : Option (List PredictiveModel)
deriving DecidableEq

/-- `exportKnowledgeBase` of the source: the full unfiltered query (`{}`) of
the four primary namespaces. -/
def exportKnowledgeBase (st : MemoryState) : KnowledgeSnapshot :=
  { viewpointExpertise := some (kvQuery st.viewpointExpertise (fun _ => true)),
    arWizardKnowledge := some (kvQuery st.arWizardKnowledge (fun _ => true)),
    databaseAnalyses := some (kvQuery st.databaseAnalysis (fun _ => true)),
    predictiveModels := some (kvQuery st.predictiveModels (fun _ => true)) }

/-- `importKnowledgeBase` of the source: for each of the four arrays
(`data.x || []`, i.e. an absent array is treated as empty), store every
record into its namespace under the record's own id. -/
def importKnowledgeBase (st : MemoryState) (data : KnowledgeSnapshot) :
    MemoryState :=
  let ve := (data.viewpointExpertise.getD []).foldl
    (fun ns e => kvStore ns e.id e) st.viewpointExpertise
  let kb := (data.arWizardKnowledge.getD []).foldl
    (fun ns k => kvStore ns k.id k) st.arWizardKnowledge
  let da := (data.databaseAnalyses.getD []).foldl
    (fun ns a => kvStore ns a.id a) st.databaseAnalysis
  let pm := (data.predictiveModels.getD []).foldl
    (fun ns m => kvStore ns m.id m) st.predictiveModels
  { st with viewpointExpertise := ve, arWizardKnowledge := kb,
            databaseAnalysis := da, predictiveModels := pm }

/-- `cleanupExpiredAnalyses` of the source: query the whole analysis
namespace (`{}`), and delete every analysis with `validUntil <= now`. -/
def cleanupExpiredAnalyses (st : MemoryState) (now : ℕ) : MemoryState :=
  let allAnalyses := kvQuery st.databaseAnalysis (fun _ => true)
  let remaining := allAnalyses.foldl
    (fun ns analysis =>
      if analysis.validUntil ≤ now then kvDelete ns analysis.id else ns)
    st.databaseAnalysis
  { st with databaseAnalysis := remaining }

/-- `performMaintenance` of the source: runs `cleanupExpiredAnalyses`;
`archiveOldKnowledge` only queries and logs and `optimizeMemoryUsage` is a
placeholder, so neither changes the store. -/
def performMaintenance (st : MemoryState) (now : ℕ) : MemoryState :=
  cleanupExpiredAnalyses st now

theorem kvGet_foldl_store_not_mem {α : Type} (key : α → String)
    (l : List α) (s : List (String × α)) (id : String)
    (h : id ∉ l.map key) :
    kvGet (l.foldl (fun ns e => kvStore ns (key e) e) s) id = kvGet s id := by
  induction l generalizing s with
  | nil => rfl
  | cons a as ih =>
    simp only [List.map_cons, List.mem_cons, not_or] at h
    rw [List.foldl_cons, ih _ h.2, kvGet_store_ne _ _ _ _ h.1]

theorem kvGet_foldl_store_mem {α : Type} (key : α → String)
    (l : List α) (s : List (String × α)) (a : α)
    (hnd : (l.map key).Nodup) (ha : a ∈ l) :
    kvGet (l.foldl (fun ns e => kvStore ns (key e) e) s) (key a) = some a := by
  induction l generalizing s with
  | nil => cases ha
  | cons b bs ih =>
    simp only [List.map_cons, List.nodup_cons] at hnd
    rcases List.mem_cons.mp ha with heq | htail
    · subst heq
      rw [List.foldl_cons, kvGet_foldl_store_not_mem key bs _ _ hnd.1,
        kvGet_store_self]
    · exact List.foldl_cons _ _ ▸ ih _ hnd.2 htail

theorem foldl_delete_eq_filter {α : Type} (cond : α → Bool) (key : α → String) :
    ∀ (l : List α) (s : List (String × α)),
      l.foldl (fun ns a => if cond a = true then kvDelete ns (key a) else ns) s
        = s.filter (fun p => l.all (fun a => !(cond a && p.1 == key a))) := by
  intro l
  induction l with
  | nil =>
    intro s
    simp
  | cons a as ih =>
    intro s
    rw [List.foldl_cons]
    by_cases hc : cond a = true
    · rw [if_pos hc]
      rw [ih (kvDelete s (key a))]
      unfold kvDelete
      rw [List.filter_filter]
      apply List.filter_congr
      intro p hp
      simp [List.all_cons, hc, Bool.and_comm, bne]
    · rw [if_neg hc]
      rw [ih s]
      apply List.filter_congr
      intro p hp
      have hc' : cond a = false := Bool.eq_false_iff.mpr hc
      simp [List.all_cons, hc']

theorem kvQuery_true_eq_values {α : Type} (s : List (String × α)) :
    kvQuery s (fun _ => true) = s.map Prod.snd := by
  unfold kvQuery
  rw [List.filter_true]

theorem sortedHead_spec {α : Type} (r : α → α → Prop) [DecidableRel r]
    [IsTotal α r] [IsTrans α r] (l : List α) :
    ((if l.isEmpty then none else (l.insertionSort r).head?) = none ↔ l = []) ∧
    (∀ x, (if l.isEmpty then none else (l.insertionSort r).head?) = some x →
      x ∈ l ∧ ∀ y ∈ l, r x y) := by
  by_cases hl : l = []
  · subst hl
    simp
  · have hne : l.isEmpty = false := by
      cases l with
      | nil => exact absurd rfl hl
      | cons a as => rfl
    rw [hne]
    simp only [Bool.false_eq_true, if_false]
    have hperm := List.perm_insertionSort r l
    have hsorted := List.sorted_insertionSort r l
    have hsne : l.insertionSort r ≠ [] := by
      intro h
      rw [h] at hperm
      exact hl hperm.symm.eq_nil
    cases hs : l.insertionSort r with
    | nil => exact absurd hs hsne
    | cons hd tl =>
      constructor
      · simp [hl]
      · intro x hx
        simp only [List.head?_cons, Option.some.injEq] at hx
        cases hx
        constructor
        · exact (hperm.mem_iff).mp (hs.symm ▸ List.mem_cons_self hd tl)
        · intro y hy
          have hy' : y ∈ l.insertionSort r := (hperm.mem_iff).mpr hy
          rw [hs] at hy'
          rcases List.mem_cons.mp hy' with heq | htail
          · subst heq
            exact (IsTotal.total y y).elim id id
          · rw [hs] at hsorted
            exact List.rel_of_sorted_cons hsorted y htail

theorem foldl_delete_eq_filter_prop {α : Type} (cond : α → Prop)
    [DecidablePred cond] (key : α → String) (l : List α)
    (s : List (String × α)) :
    l.foldl (fun ns a => if cond a then kvDelete ns (key a) else ns) s
      = s.filter (fun p => l.all (fun a => !(decide (cond a) && p.1 == key a))) := by
  have h := foldl_delete_eq_filter (fun a => decide (cond a)) key l s
  simpa using h

theorem cleanup_databaseAnalysis (st : MemoryState) (now : ℕ) :
    (cleanupExpiredAnalyses st now).databaseAnalysis
      = st.databaseAnalysis.filter
          (fun p => (st.databaseAnalysis.map Prod.snd).all
            (fun a => !(decide (a.validUntil ≤ now) && p.1 == a.id))) := by
  show (kvQuery st.databaseAnalysis (fun _ => true)).foldl
      (fun ns analysis =>
        if analysis.validUntil ≤ now then kvDelete ns analysis.id else ns)
      st.databaseAnalysis = _
  rw [kvQuery_true_eq_values]
  exact foldl_delete_eq_filter_prop
    (fun a : DatabaseAnalysis => a.validUntil ≤ now)
    (fun a : DatabaseAnalysis => a.id) _ _

theorem cleanup_no_expired (st : MemoryState) (now : ℕ)
    (hk : ∀ p ∈ st.databaseAnalysis, p.2.id = p.1) :
    ∀ p ∈ (cleanupExpiredAnalyses st now).databaseAnalysis,
      now < p.2.validUntil := by
  intro p hp
  rw [cleanup_databaseAnalysis] at hp
  have hmem := List.mem_of_mem_filter hp
  have hall := List.of_mem_filter hp
  rw [List.all_eq_true] at hall
  have hthis := hall p.2 (List.mem_map.mpr ⟨p, hmem, rfl⟩)
  have hid : p.2.id = p.1 := hk p hmem
  have hnle : ¬ (p.2.validUntil ≤ now) := by
    intro hle
    simp [hle, hid] at hthis
  exact Nat.not_le.mp hnle

theorem ids_map_eq_keys {α : Type} (key : α → String)
    (l : List (String × α)) (hk : ∀ p ∈ l, key p.2 = p.1) :
    l.map (fun p => key p.2) = l.map Prod.fst :=
  List.map_congr_left (fun p hp => hk p hp)

theorem kvQuery_ids_nodup {α : Type} (key : α → String)
    (s : List (String × α)) (pred : α → Bool)
    (hnd : (s.map Prod.fst).Nodup) (hk : ∀ p ∈ s, key p.2 = p.1) :
    ((kvQuery s pred).map key).Nodup := by
  unfold kvQuery
  rw [List.map_map]
  have heq : (s.filter (fun p => pred p.2)).map (fun p => key p.2)
      = (s.filter (fun p => pred p.2)).map Prod.fst :=
    ids_map_eq_keys key _ (fun p hp => hk p (List.mem_of_mem_filter hp))
  show (s.filter (fun p => pred p.2)).map (fun p => key p.2) |>.Nodup
  rw [heq]
  exact hnd.sublist ((s.filter_sublist).map Prod.fst)

theorem getViewpointExpertise_contract (st : MemoryState)
    (domain : ExpertiseDomain) (type? : Option ExpertiseType)
    (hnd : (st.viewpointExpertise.map Prod.fst).Nodup)
    (hk : ∀ p ∈ st.viewpointExpertise, p.2.id = p.1) :
    (getViewpointExpertise st domain type?).1
      = (kvQuery st.viewpointExpertise (expertiseMatches domain type?)).map
          (fun e => { e with usageCount := e.usageCount + 1 }) ∧
    ∀ e ∈ kvQuery st.viewpointExpertise (expertiseMatches domain type?),
      kvGet st.viewpointExpertise e.id = some e ∧
      kvGet (getViewpointExpertise st domain type?).2.viewpointExpertise e.id
        = some { e with usageCount := e.usageCount + 1 } := by
  have hqnd : ((kvQuery st.viewpointExpertise
      (expertiseMatches domain type?)).map (fun e => e.id)).Nodup :=
    kvQuery_ids_nodup (fun e => e.id) _ _ hnd hk
  have hmapped : (((kvQuery st.viewpointExpertise
        (expertiseMatches domain type?)).map
        (fun e => { e with usageCount := e.usageCount + 1 })).map
        (fun e => e.id)).Nodup := by
    rw [List.map_map]
    exact hqnd
  constructor
  · rfl
  · intro e he
    rcases (mem_kvQuery _ _ _).mp he with ⟨⟨k, hke⟩, hpred⟩
    have hid : e.id = k := hk (k, e) hke
    constructor
    · rw [hid]
      exact kvGet_of_mem_nodup st.viewpointExpertise k e hnd hke
    · have hmem : ({ e with usageCount := e.usageCount + 1 } : ViewpointExpertise)
          ∈ (kvQuery st.viewpointExpertise (expertiseMatches domain type?)).map
              (fun e => { e with usageCount := e.usageCount + 1 }) :=
        List.mem_map.mpr ⟨e, he, rfl⟩
      exact kvGet_foldl_store_mem (fun e => e.id) _ _ _ hmapped hmem

theorem kvGet_some_mem_keys {α : Type} (s : List (String × α)) (id : String)
    (v : α) (h : kvGet s id = some v) : id ∈ s.map Prod.fst := by
  unfold kvGet at h
  cases hf : s.find? (fun p => p.1 == id) with
  | none => rw [hf] at h; cases h
  | some q =>
    have hq := List.find?_some hf
    have hmem := List.mem_of_find?_eq_some hf
    have hqid : q.1 = id := by simpa [beq_iff_eq] using hq
    exact hqid ▸ List.mem_map.mpr ⟨q, hmem, rfl⟩

/-- The empty memory state, for concrete instantiations. -/
def emptyState : MemoryState := ⟨[], [], [], [], []⟩

/-- A concrete metrics record for instantiations. -/
def sampleMetrics : AnalysisMetrics :=
  { dataVolume := 1, qualityScore := 1, performanceScore := 1,
    completenessScore := 1 }

/-- A live analysis (validUntil 100) analyzed at 10. -/
def analysisLive : DatabaseAnalysis :=
  { id := "a1", database := .kls, analysisType := .dataQuality,
    results := "r1", metrics := sampleMetrics, recommendations := [],
    analyzedAt := 10, validUntil := 100 }

/-- A live analysis (validUntil 100) analyzed later, at 30. -/
def analysisLate : DatabaseAnalysis :=
  { id := "a2", database := .kls, analysisType := .dataQuality,
    results := "r2", metrics := sampleMetrics, recommendations := [],
    analyzedAt := 30, validUntil := 100 }

/-- An analysis that is expired at time 50 (validUntil 40). -/
def analysisExpired : DatabaseAnalysis :=
  { id := "a3", database := .kls, analysisType := .dataQuality,
    results := "r3", metrics := sampleMetrics, recommendations := [],
    analyzedAt := 5, validUntil := 40 }

/-- A state holding the three sample analyses. -/
def analysisState : MemoryState :=
  ⟨[], [], [("a1", analysisLive), ("a2", analysisLate), ("a3", analysisExpired)],
   [], []⟩

/-- A concrete training-data record for instantiations. -/
def sampleTraining : TrainingData :=
  { source := "src", size := 10, dateRange := { start := 0, endTime := 1 } }

/-- The rational 0.80, given in normal form (4/5) so that kernel reduction
does not need rational normalization. -/
def acc80 : ℚ := ⟨4, 5, by decide, by decide⟩

/-- The rational 0.92, given in normal form (23/25). -/
def acc92 : ℚ := ⟨23, 25, by decide, by decide⟩

/-- Performance with accuracy 0.80. -/
def modelPerf80 : ModelPerformance :=
  { accuracy := acc80, precisionScore := 1, recallScore := 1, f1Score := 1 }

/-- Performance with accuracy 0.92. -/
def modelPerf92 : ModelPerformance :=
  { accuracy := acc92, precisionScore := 1, recallScore := 1, f1Score := 1 }

/-- Model A with accuracy 0.80. -/
def modelA : PredictiveModel :=
  { id := "m1", name := "A", type := .billingPrediction, algorithm := "alg",
    features := [], trainingData := sampleTraining, performance := modelPerf80,
    model := "blob1", version := "1", trainedAt := 0, lastValidated := 0 }

/-- Model B with accuracy 0.92, same type as model A. -/
def modelB : PredictiveModel :=
  { id := "m2", name := "B", type := .billingPrediction, algorithm := "alg",
    features := [], trainingData := sampleTraining, performance := modelPerf92,
    model := "blob2", version := "1", trainedAt := 0, lastValidated := 0 }

/-- A state holding models A and B. -/
def modelState : MemoryState :=
  ⟨[], [], [], [("m1", modelA), ("m2", modelB)], []⟩

/-- An expertise record in domain job-billing with usageCount 5. -/
def expertise1 : ViewpointExpertise :=
  { id := "e1", type := .sqlProcedure, domain := .jobBilling, content := "c1",
    confidence := 1, lastUpdated := 0, source := "s", validated := true,
    usageCount := 5 }

/-- A second expertise record in domain job-billing with usageCount 7. -/
def expertise2 : ViewpointExpertise :=
  { id := "e2", type := .businessRule, domain := .jobBilling, content := "c2",
    confidence := 1, lastUpdated := 0, source := "s", validated := false,
    usageCount := 7 }

/-- A state holding the two sample expertise records. -/
def expertiseState : MemoryState :=
  ⟨[("e1", expertise1), ("e2", expertise2)], [], [], [], []⟩

/-- Claim C2: for every database tag and optional analysis kind,
`getDatabaseAnalysis` never returns a record with `validUntil ≤ now`, and one
run of `cleanupExpiredAnalyses` leaves no record with `validUntil ≤ now` in
the analysis namespace (assuming records are stored under their own id, as
every store operation of the manager does). -/
theorem freshness_filtering (st : MemoryState) (database : DatabaseTag)
    (analysisType? : Option AnalysisKind) (now : ℕ)
    (hk : ∀ p ∈ st.databaseAnalysis, p.2.id = p.1) :
    (∀ a ∈ getDatabaseAnalysis st database analysisType? now,
      now < a.validUntil) ∧
    (∀ p ∈ (cleanupExpiredAnalyses st now).databaseAnalysis,
      now < p.2.validUntil) := by
  constructor
  · intro a ha
    have hfil := List.of_mem_filter ha
    simpa using hfil
  · exact cleanup_no_expired st now hk

/-- Witness for C2 at the concrete three-analysis state at time 50. -/
theorem freshness_filtering_witness :
    (∀ p ∈ analysisState.databaseAnalysis, p.2.id = p.1) ∧
    ((∀ a ∈ getDatabaseAnalysis analysisState .kls none 50,
        50 < a.validUntil) ∧
     (∀ p ∈ (cleanupExpiredAnalyses analysisState 50).databaseAnalysis,
        50 < p.2.validUntil)) :=
  ⟨by decide, freshness_filtering analysisState .kls none 50 (by decide)⟩

/-- Claim C4: `getBestPredictiveModel` returns null exactly when no model of
the type is stored, and otherwise a stored model of that type of maximal
`performance.accuracy`. -/
theorem best_model_spec (st : MemoryState) (type : ModelType) :
    (getBestPredictiveModel st type = none ↔
      getPredictiveModel st type none = []) ∧
    (∀ m, getBestPredictiveModel st type = some m →
      m ∈ getPredictiveModel st type none ∧ m.type = type ∧
      (∃ k, (k, m) ∈ st.predictiveModels) ∧
      ∀ m' ∈ getPredictiveModel st type none,
        m'.performance.accuracy ≤ m.performance.accuracy) := by
  have h := sortedHead_spec modelAccGe (getPredictiveModel st type none)
  constructor
  · exact h.1
  · intro m hm
    have h2 := h.2 m hm
    have hmem := h2.1
    rcases (mem_kvQuery _ _ _).mp hmem with ⟨⟨k, hk⟩, hpred⟩
    have htype : m.type = type := by
      simp only [Bool.and_eq_true, beq_iff_eq] at hpred
      exact hpred.1
    exact ⟨hmem, htype, ⟨k, hk⟩, fun m' hm' => h2.2 m' hm'⟩

/-- Witness for C4: in the state with models of accuracy 0.80 and 0.92, the
0.92 model is returned and dominates both stored models. -/
theorem best_model_witness :
    getBestPredictiveModel modelState .billingPrediction = some modelB ∧
    (modelB ∈ getPredictiveModel modelState .billingPrediction none ∧
     modelB.type = .billingPrediction ∧
     (∃ k, (k, modelB) ∈ modelState.predictiveModels) ∧
     ∀ m' ∈ getPredictiveModel modelState .billingPrediction none,
       m'.performance.accuracy ≤ modelB.performance.accuracy) :=
  ⟨by decide,
   (best_model_spec modelState .billingPrediction).2 modelB (by decide)⟩

/-- Claim C5: `getLatestDatabaseAnalysis` returns null exactly when the
live-filtered query result is empty, and otherwise a live matching record of
maximal `analyzedAt` among the live matching records. -/
theorem latest_analysis_spec (st : MemoryState) (database : DatabaseTag)
    (analysisType : AnalysisKind) (now : ℕ) :
    (getLatestDatabaseAnalysis st database analysisType now = none ↔
      getDatabaseAnalysis st database (some analysisType) now = []) ∧
    (∀ a, getLatestDatabaseAnalysis st database analysisType now = some a →
      a ∈ getDatabaseAnalysis st database (some analysisType) now ∧
      now < a.validUntil ∧ a.database = database ∧
      a.analysisType = analysisType ∧
      ∀ b ∈ getDatabaseAnalysis st database (some analysisType) now,
        b.analyzedAt ≤ a.analyzedAt) := by
  have h := sortedHead_spec analyzedAtGe
    (getDatabaseAnalysis st database (some analysisType) now)
  constructor
  · exact h.1
  · intro a ha
    have h2 := h.2 a ha
    have hmem := h2.1
    have hfil := List.of_mem_filter hmem
    have hq := List.mem_of_mem_filter hmem
    rcases (mem_kvQuery _ _ _).mp hq with ⟨⟨k, hk⟩, hpred⟩
    simp only [analysisMatches, Bool.and_eq_true, beq_iff_eq] at hpred
    refine ⟨hmem, by simpa using hfil, hpred.1, hpred.2, ?_⟩
    exact fun b hb => h2.2 b hb

/-- Witness for C5: at time 50, the analysis analyzed at 30 is the latest
among the two live sample analyses. -/
theorem latest_analysis_witness :
    getLatestDatabaseAnalysis analysisState .kls .dataQuality 50
      = some analysisLate ∧
    (analysisLate ∈ getDatabaseAnalysis analysisState .kls
        (some .dataQuality) 50 ∧
     50 < analysisLate.validUntil ∧ analysisLate.database = .kls ∧
     analysisLate.analysisType = .dataQuality ∧
     ∀ b ∈ getDatabaseAnalysis analysisState .kls (some .dataQuality) 50,
       b.analyzedAt ≤ analysisLate.analyzedAt) :=
  ⟨by decide,
   (latest_analysis_spec analysisState .kls .dataQuality 50).2 analysisLate
     (by decide)⟩

/-- Claim C7: `updateModelPerformance` on an existing id replaces only the
`performance` field and sets `lastValidated := now`, leaving the model's
other fields, all other model records and every other namespace unchanged;
on a missing id it is a no-op that leaves the whole state unchanged. -/
theorem update_performance_contract (st : MemoryState) (modelId : String)
    (performance : ModelPerformance) (now : ℕ) :
    (kvGet st.predictiveModels modelId = none →
      updateModelPerformance st modelId performance now = st) ∧
    (∀ model, kvGet st.predictiveModels modelId = some model →
      kvGet (updateModelPerformance st modelId performance now).predictiveModels
          modelId
        = some ({ model with performance := performance, lastValidated := now }) ∧
      (∀ id', id' ≠ modelId →
        kvGet (updateModelPerformance st modelId performance now).predictiveModels
            id'
          = kvGet st.predictiveModels id') ∧
      (updateModelPerformance st modelId performance now).viewpointExpertise
        = st.viewpointExpertise ∧
      (updateModelPerformance st modelId performance now).arWizardKnowledge
        = st.arWizardKnowledge ∧
      (updateModelPerformance st modelId performance now).databaseAnalysis
        = st.databaseAnalysis ∧
      (updateModelPerformance st modelId performance now).sharedContext
        = st.sharedContext) := by
  constructor
  · intro h
    unfold updateModelPerformance
    rw [h]
  · intro model h
    unfold updateModelPerformance
    rw [h]
    exact ⟨kvGet_store_self _ _ _,
           fun id' hne => kvGet_store_ne _ _ _ _ hne,
           rfl, rfl, rfl, rfl⟩

/-- Witness for C7 at the two-model state: updating model m1 replaces its
performance and no-ops are observed on the missing id "zz". -/
theorem update_performance_witness :
    (kvGet (updateModelPerformance modelState "m1" modelPerf92 9).predictiveModels
        "m1"
      = some ({ modelA with performance := modelPerf92, lastValidated := 9 }) ∧
     (∀ id', id' ≠ "m1" →
       kvGet (updateModelPerformance modelState "m1" modelPerf92 9).predictiveModels
           id'
         = kvGet modelState.predictiveModels id') ∧
     (updateModelPerformance modelState "m1" modelPerf92 9).viewpointExpertise
       = modelState.viewpointExpertise ∧
     (updateModelPerformance modelState "m1" modelPerf92 9).arWizardKnowledge
       = modelState.arWizardKnowledge ∧
     (updateModelPerformance modelState "m1" modelPerf92 9).databaseAnalysis
       = modelState.databaseAnalysis ∧
     (updateModelPerformance modelState "m1" modelPerf92 9).sharedContext
       = modelState.sharedContext) ∧
    updateModelPerformance modelState "zz" modelPerf92 9 = modelState :=
  ⟨(update_performance_contract modelState "m1" modelPerf92 9).2 modelA
      (by decide),
   (update_performance_contract modelState "zz" modelPerf92 9).1 (by decide)⟩

/-- Claim C9: for a fixed current time, `cleanupExpiredAnalyses` is
idempotent — a second run changes nothing, and any positive number of runs
gives the same end state as one run. -/
theorem sweep_idempotent (st : MemoryState) (now : ℕ) :
    cleanupExpiredAnalyses (cleanupExpiredAnalyses st now) now
      = cleanupExpiredAnalyses st now ∧
    ∀ n : ℕ, (fun s => cleanupExpiredAnalyses s now)^[n + 1] st
      = cleanupExpiredAnalyses st now := by
  have hfield : (cleanupExpiredAnalyses (cleanupExpiredAnalyses st now) now).databaseAnalysis
      = (cleanupExpiredAnalyses st now).databaseAnalysis := by
    rw [cleanup_databaseAnalysis (cleanupExpiredAnalyses st now) now]
    apply List.filter_eq_self.mpr
    intro p hp
    rw [List.all_eq_true]
    intro a ha
    rcases List.mem_map.mp ha with ⟨q, hq, rfl⟩
    rw [cleanup_databaseAnalysis] at hp hq
    have hallp := List.of_mem_filter hp
    rw [List.all_eq_true] at hallp
    exact hallp q.2 (List.mem_map.mpr ⟨q, List.mem_of_mem_filter hq, rfl⟩)
  have hidem : cleanupExpiredAnalyses (cleanupExpiredAnalyses st now) now
      = cleanupExpiredAnalyses st now := by
    calc cleanupExpiredAnalyses (cleanupExpiredAnalyses st now) now
        = { cleanupExpiredAnalyses st now with databaseAnalysis :=
            (cleanupExpiredAnalyses (cleanupExpiredAnalyses st now) now).databaseAnalysis } := rfl
      _ = cleanupExpiredAnalyses st now := by rw [hfield]
  refine ⟨hidem, ?_⟩
  intro n
  induction n with
  | zero => simp
  | succ k ih =>
    rw [Function.iterate_succ_apply']
    simp only at ih
    rw [ih]
    exact hidem

/-- Claim C10: `importKnowledgeBase` tolerates a snapshot in which any of the
four arrays is absent — each absent array imports nothing into its namespace,
and a snapshot with all four arrays absent leaves the state unchanged. -/
theorem import_absent_arrays (st : MemoryState) (data : KnowledgeSnapshot) :
    (data.viewpointExpertise = none →
      (importKnowledgeBase st data).viewpointExpertise = st.viewpointExpertise) ∧
    (data.arWizardKnowledge = none →
      (importKnowledgeBase st data).arWizardKnowledge = st.arWizardKnowledge) ∧
    (data.databaseAnalyses = none →
      (importKnowledgeBase st data).databaseAnalysis = st.databaseAnalysis) ∧
    (data.predictiveModels = none →
      (importKnowledgeBase st data).predictiveModels = st.predictiveModels) ∧
    (data = ⟨none, none, none, none⟩ → importKnowledgeBase st data = st) := by
  refine ⟨?_, ?_, ?_, ?_, ?_⟩
  · intro h
    simp [importKnowledgeBase, h]
  · intro h
    simp [importKnowledgeBase, h]
  · intro h
    simp [importKnowledgeBase, h]
  · intro h
    simp [importKnowledgeBase, h]
  · intro h
    subst h
    simp [importKnowledgeBase]

/-- Witness for C10: importing the all-absent snapshot into the sample
expertise state changes nothing. -/
theorem import_absent_arrays_witness :
    importKnowledgeBase expertiseState ⟨none, none, none, none⟩
      = expertiseState :=
  (import_absent_arrays expertiseState ⟨none, none, none, none⟩).2.2.2.2 rfl

/-- Claim C3: `getViewpointExpertise` returns exactly the matching records
with `usageCount` incremented by one, and persists each increment: for every
matching record, the stored value before the call is the record itself and
the stored value after the call is the record with `usageCount + 1`
(assuming unique keys that match the records' own ids, which every store
operation of the manager maintains). -/
theorem usage_count_increment (st : MemoryState) (domain : ExpertiseDomain)
    (type? : Option ExpertiseType)
    (hnd : (st.viewpointExpertise.map Prod.fst).Nodup)
    (hk : ∀ p ∈ st.viewpointExpertise, p.2.id = p.1) :
    (getViewpointExpertise st domain type?).1
      = (kvQuery st.viewpointExpertise (expertiseMatches domain type?)).map
          (fun e => { e with usageCount := e.usageCount + 1 }) ∧
    ∀ e ∈ kvQuery st.viewpointExpertise (expertiseMatches domain type?),
      kvGet st.viewpointExpertise e.id = some e ∧
      kvGet (getViewpointExpertise st domain type?).2.viewpointExpertise e.id
        = some ({ e with usageCount := e.usageCount + 1 }) :=
  getViewpointExpertise_contract st domain type? hnd hk

/-- Witness for C3 at the two-expertise state: both job-billing records come
back incremented and the increments are persisted. -/
theorem usage_count_increment_witness :
    (getViewpointExpertise expertiseState .jobBilling none).1
      = (kvQuery expertiseState.viewpointExpertise
          (expertiseMatches .jobBilling none)).map
          (fun e => { e with usageCount := e.usageCount + 1 }) ∧
    ∀ e ∈ kvQuery expertiseState.viewpointExpertise
        (expertiseMatches .jobBilling none),
      kvGet expertiseState.viewpointExpertise e.id = some e ∧
      kvGet (getViewpointExpertise expertiseState .jobBilling none).2.viewpointExpertise
          e.id
        = some ({ e with usageCount := e.usageCount + 1 }) :=
  usage_count_increment expertiseState .jobBilling none (by decide) (by decide)

/-- The snapshot record overwriting expertise id e1 on import. -/
def expertise1Snap : ViewpointExpertise :=
  { expertise1 with content := "updated", usageCount := 0 }

/-- A snapshot record with the fresh expertise id e3. -/
def expertise3 : ViewpointExpertise :=
  { id := "e3", type := .schemaKnowledge, domain := .jobCosting,
    content := "c3", confidence := 1, lastUpdated := 2, source := "s2",
    validated := true, usageCount := 0 }

/-- A snapshot carrying the two expertise records above and nothing else. -/
def snapMerge : KnowledgeSnapshot :=
  ⟨some [expertise1Snap, expertise3], none, none, none⟩

/-- Claim C8: import is a merge — every snapshot record ends up stored under
its own id (overwriting any existing record with that id), and every id not
mentioned in the snapshot keeps its previous stored value (snapshot arrays
assumed free of duplicate ids). -/
theorem import_merge (st : MemoryState) (data : KnowledgeSnapshot)
    (h1 : ((data.viewpointExpertise.getD []).map (fun e => e.id)).Nodup)
    (h2 : ((data.arWizardKnowledge.getD []).map (fun k => k.id)).Nodup)
    (h3 : ((data.databaseAnalyses.getD []).map (fun a => a.id)).Nodup)
    (h4 : ((data.predictiveModels.getD []).map (fun m => m.id)).Nodup) :
    (∀ e ∈ data.viewpointExpertise.getD [],
      kvGet (importKnowledgeBase st data).viewpointExpertise e.id = some e) ∧
    (∀ id, id ∉ (data.viewpointExpertise.getD []).map (fun e => e.id) →
      kvGet (importKnowledgeBase st data).viewpointExpertise id
        = kvGet st.viewpointExpertise id) ∧
    (∀ k ∈ data.arWizardKnowledge.getD [],
      kvGet (importKnowledgeBase st data).arWizardKnowledge k.id = some k) ∧
    (∀ id, id ∉ (data.arWizardKnowledge.getD []).map (fun k => k.id) →
      kvGet (importKnowledgeBase st data).arWizardKnowledge id
        = kvGet st.arWizardKnowledge id) ∧
    (∀ a ∈ data.databaseAnalyses.getD [],
      kvGet (importKnowledgeBase st data).databaseAnalysis a.id = some a) ∧
    (∀ id, id ∉ (data.databaseAnalyses.getD []).map (fun a => a.id) →
      kvGet (importKnowledgeBase st data).databaseAnalysis id
        = kvGet st.databaseAnalysis id) ∧
    (∀ m ∈ data.predictiveModels.getD [],
      kvGet (importKnowledgeBase st data).predictiveModels m.id = some m) ∧
    (∀ id, id ∉ (data.predictiveModels.getD []).map (fun m => m.id) →
      kvGet (importKnowledgeBase st data).predictiveModels id
        = kvGet st.predictiveModels id) := by
  refine ⟨?_, ?_, ?_, ?_, ?_, ?_, ?_, ?_⟩
  · intro e he
    exact kvGet_foldl_store_mem (fun e => e.id) _ _ _ h1 he
  · intro id hid
    exact kvGet_foldl_store_not_mem (fun e : ViewpointExpertise => e.id) _ _ _ hid
  · intro k hk
    exact kvGet_foldl_store_mem (fun k => k.id) _ _ _ h2 hk
  · intro id hid
    exact kvGet_foldl_store_not_mem (fun k : ARWizardKnowledge => k.id) _ _ _ hid
  · intro a ha
    exact kvGet_foldl_store_mem (fun a => a.id) _ _ _ h3 ha
  · intro id hid
    exact kvGet_foldl_store_not_mem (fun a : DatabaseAnalysis => a.id) _ _ _ hid
  · intro m hm
    exact kvGet_foldl_store_mem (fun m => m.id) _ _ _ h4 hm
  · intro id hid
    exact kvGet_foldl_store_not_mem (fun m : PredictiveModel => m.id) _ _ _ hid

/-- Witness for C8: merging the sample snapshot into the two-expertise state
overwrites id e1 with the snapshot value and leaves id e2 untouched. -/
theorem import_merge_witness :
    kvGet (importKnowledgeBase expertiseState snapMerge).viewpointExpertise
        "e1" = some expertise1Snap ∧
    kvGet (importKnowledgeBase expertiseState snapMerge).viewpointExpertise
        "e2" = kvGet expertiseState.viewpointExpertise "e2" := by
  have h := import_merge expertiseState snapMerge
    (by decide) (by decide) (by decide) (by decide)
  exact ⟨h.1 expertise1Snap (by decide), h.2.1 "e2" (by decide)⟩

/-- The wrapper actually stored by `storeSharedContext`
(`ttl: ttl || 3600000`): the default applies when `ttl` is omitted and also
when it is `0`, since `0` is falsy in JS. -/
def storedSharedContextEntry (context : String) (ttl? : Option ℕ) (now : ℕ) :
    SharedContextEntry :=
  { data := context, timestamp := now,
    ttl := match ttl? with
           | some t => if t = 0 then 3600000 else t
           | none => 3600000 }

/-- The wrapper claim C1 describes: `ttl` is the supplied value whenever one
is supplied, and 3600000 only when it is omitted (the spec's
`ttl ?? 3600000`). -/
def claimedSharedContextEntry (context : String) (ttl? : Option ℕ) (now : ℕ) :
    SharedContextEntry :=
  { data := context, timestamp := now, ttl := ttl?.getD 3600000 }

/-- Counterexample to claim C1 as stated: storing with the supplied ttl `0`
does not store the wrapper the claim describes — the code stores ttl 3600000
(JS `||` treats `0` as falsy), while the claimed wrapper keeps ttl `0`. -/
theorem shared_ttl_counterexample :
    kvGet ((storeSharedContext emptyState "k" "d" (some 0) 5).sharedContext) "k"
      = some (storedSharedContextEntry "d" (some 0) 5) ∧
    storedSharedContextEntry "d" (some 0) 5
      ≠ claimedSharedContextEntry "d" (some 0) 5 := by decide

/-- Claim C1 (amended): `storeSharedContext` stores
`{data, timestamp: now, ttl: given ttl when supplied and nonzero, else
3600000}`; `getSharedContext` returns null on absence, deletes the entry and
returns null when `now - timestamp > ttl` (the raw entry is then gone), and
otherwise returns the stored data unchanged; in particular a put with
ttl 1000 followed by a get 1001 ms later returns null and removes the raw
entry. -/
theorem shared_context_ttl_contract (st : MemoryState) (key context : String)
    (ttl? : Option ℕ) (now getNow : ℕ) :
    (kvGet ((storeSharedContext st key context ttl? now).sharedContext) key
      = some (storedSharedContextEntry context ttl? now)) ∧
    (kvGet st.sharedContext key = none →
      getSharedContext st key getNow = (none, st)) ∧
    (∀ r, kvGet st.sharedContext key = some r →
      r.ttl < getNow - r.timestamp →
      (getSharedContext st key getNow).1 = none ∧
      kvGet (getSharedContext st key getNow).2.sharedContext key = none) ∧
    (∀ r, kvGet st.sharedContext key = some r →
      ¬ r.ttl < getNow - r.timestamp →
      getSharedContext st key getNow = (some r.data, st)) ∧
    ((getSharedContext (storeSharedContext st key context (some 1000) now) key
        (now + 1001)).1 = none ∧
     kvGet (getSharedContext (storeSharedContext st key context (some 1000) now)
        key (now + 1001)).2.sharedContext key = none) := by
  refine ⟨?_, ?_, ?_, ?_, ?_⟩
  · exact kvGet_store_self _ _ _
  · intro h
    unfold getSharedContext
    rw [h]
  · intro r hr hexp
    unfold getSharedContext
    rw [hr]
    dsimp only
    rw [if_pos hexp]
    exact ⟨rfl, kvGet_delete_self _ _⟩
  · intro r hr hnexp
    unfold getSharedContext
    rw [hr]
    dsimp only
    rw [if_neg hnexp]
  · have hg : kvGet (storeSharedContext st key context (some 1000) now).sharedContext
        key = some (storedSharedContextEntry context (some 1000) now) :=
      kvGet_store_self _ _ _
    have hc : (storedSharedContextEntry context (some 1000) now).ttl
        < (now + 1001) - (storedSharedContextEntry context (some 1000) now).timestamp := by
      show (1000 : ℕ) < (now + 1001) - now
      omega
    constructor
    · unfold getSharedContext
      rw [hg]
      dsimp only
      rw [if_pos hc]
    · unfold getSharedContext
      rw [hg]
      dsimp only
      rw [if_pos hc]
      exact kvGet_delete_self _ _

/-- Witness for C1 (amended) at a concrete expired read: the entry stored at
time 0 with ttl 1000 is reported absent at time 1001 and deleted. -/
theorem shared_context_ttl_witness :
    (getSharedContext (storeSharedContext emptyState "k" "d" (some 1000) 0)
        "k" 1001).1 = none ∧
    kvGet (getSharedContext (storeSharedContext emptyState "k" "d" (some 1000) 0)
        "k" 1001).2.sharedContext "k" = none :=
  (shared_context_ttl_contract emptyState "k" "d" (some 1000) 0 1001).2.2.2.2

/-- Counterexample to claim C6 as stated: `importKnowledgeBase` is a public
operation of the store, yet importing the sample snapshot lowers the
persisted usageCount of existing expertise id e1 from 5 to 0. -/
theorem usage_monotone_counterexample :
    kvGet expertiseState.viewpointExpertise "e1" = some expertise1 ∧
    kvGet (importKnowledgeBase expertiseState snapMerge).viewpointExpertise "e1"
      = some expertise1Snap ∧
    expertise1Snap.usageCount < expertise1.usageCount := by decide

/-- Claim C6 (amended): the persisted usageCount of an existing expertise id
never decreases under store (with a fresh generated id), query-retrieval,
search, or maintenance; `importKnowledgeBase` is the exception — it
overwrites an existing record with the snapshot's record verbatim, which may
carry a lower usageCount. -/
theorem usage_count_monotone_amended (st : MemoryState) (id fid : String)
    (domain : ExpertiseDomain) (type? : Option ExpertiseType)
    (textPred : ViewpointExpertise → Bool) (domain? : Option ExpertiseDomain)
    (etype : ExpertiseType) (content source : String) (confidence : ℚ)
    (validated : Bool) (category : KnowledgeCategory) (now : ℕ)
    (hnd : (st.viewpointExpertise.map Prod.fst).Nodup)
    (hk : ∀ p ∈ st.viewpointExpertise, p.2.id = p.1)
    (hfresh : fid ∉ st.viewpointExpertise.map Prod.fst) :
    (∀ e, kvGet st.viewpointExpertise id = some e →
      ∃ e', kvGet (getViewpointExpertise st domain type?).2.viewpointExpertise id
          = some e' ∧ e.usageCount ≤ e'.usageCount) ∧
    (searchViewpointExpertise st textPred domain?).2 = st ∧
    (∀ e, kvGet st.viewpointExpertise id = some e →
      kvGet (storeViewpointExpertise st fid now etype domain content confidence
          source validated).1.viewpointExpertise id = some e) ∧
    (performMaintenance st now).viewpointExpertise = st.viewpointExpertise ∧
    (getARWizardKnowledge st category now).2.viewpointExpertise
      = st.viewpointExpertise := by
  refine ⟨?_, rfl, ?_, rfl, rfl⟩
  · intro e he
    by_cases hid : id ∈ ((kvQuery st.viewpointExpertise
        (expertiseMatches domain type?)).map
        (fun e => { e with usageCount := e.usageCount + 1 })).map
        (fun e => e.id)
    · rcases List.mem_map.mp hid with ⟨m, hm, hmid⟩
      rcases List.mem_map.mp hm with ⟨e₀, he₀, rfl⟩
      have hid0 : e₀.id = id := hmid
      rcases (mem_kvQuery _ _ _).mp he₀ with ⟨⟨k, hke⟩, _⟩
      have hk0 : e₀.id = k := hk (k, e₀) hke
      have hg : kvGet st.viewpointExpertise k = some e₀ :=
        kvGet_of_mem_nodup _ _ _ hnd hke
      have hkid : k = id := hk0 ▸ hid0
      rw [hkid] at hg
      have he0e : e₀ = e := Option.some.inj (hg.symm.trans he)
      subst he0e
      refine ⟨{ e₀ with usageCount := e₀.usageCount + 1 }, ?_, Nat.le_succ _⟩
      have hqnd := kvQuery_ids_nodup (fun e : ViewpointExpertise => e.id)
        st.viewpointExpertise (expertiseMatches domain type?) hnd hk
      have hmnd : (((kvQuery st.viewpointExpertise
          (expertiseMatches domain type?)).map
          (fun e => { e with usageCount := e.usageCount + 1 })).map
          (fun e => e.id)).Nodup := by
        rw [List.map_map]
        exact hqnd
      have hstep := kvGet_foldl_store_mem (fun e : ViewpointExpertise => e.id)
        ((kvQuery st.viewpointExpertise (expertiseMatches domain type?)).map
          (fun e => { e with usageCount := e.usageCount + 1 }))
        st.viewpointExpertise _ hmnd hm
      rw [← hid0]
      exact hstep
    · refine ⟨e, ?_, Nat.le_refl _⟩
      have hpres := kvGet_foldl_store_not_mem
        (fun e : ViewpointExpertise => e.id)
        ((kvQuery st.viewpointExpertise (expertiseMatches domain type?)).map
          (fun e => { e with usageCount := e.usageCount + 1 }))
        st.viewpointExpertise id hid
      exact hpres.trans he
  · intro e he
    have hin := kvGet_some_mem_keys _ _ _ he
    have hne : id ≠ fid := fun hcontra => hfresh (hcontra ▸ hin)
    exact (kvGet_store_ne _ _ _ _ hne).trans he

/-- Witness for C6 (amended) at the two-expertise state: a retrieval leaves
id e1's stored count no lower, and a search leaves the state untouched. -/
theorem usage_count_monotone_witness :
    (∃ e', kvGet (getViewpointExpertise expertiseState .jobBilling
        none).2.viewpointExpertise "e1" = some e' ∧
      expertise1.usageCount ≤ e'.usageCount) ∧
    (searchViewpointExpertise expertiseState (fun _ => true) none).2
      = expertiseState :=
  have h := usage_count_monotone_amended expertiseState "e1" "zz" .jobBilling
    none (fun _ => true) none .sqlProcedure "c" "s" 1 true .billingRule 1
    (by decide) (by decide) (by decide)
  ⟨h.1 expertise1 (by decide), h.2.1⟩
